import Mathlib

/-!
Shallow embedding of the millennium-data-quality backtester core
(backtest_engine.py, order_generator.py, metrics.py) and proofs of the
behavioural properties stated in its specification.

Modelling conventions:
- trading dates are natural numbers (only their identity and order matter);
- prices, cash and returns are rationals (real-valued metrics that need
  sqrt or log are modelled over the reals);
- share counts are integers, as in the Python source;
- Python loops that mutate state become structural recursion with explicit
  state passing, and statements that can raise become Except values.
-/

namespace Backtester

/-- Order side, the value of the "type" key of an order dict. -/
inductive Side
  | buy
  | sell
deriving DecidableEq

/-- An order dict as produced by the generators and consumed by the engine:
keys "date", "type", "ticker", "quantity". -/
structure Order where
  date : Nat
  type : Side
  ticker : String
  quantity : Int
deriving DecidableEq

/-- The price data handed to the engine: the Close column of a DataFrame
indexed by date. -/
structure PriceTable where
  rows : List (Nat × ℚ)
deriving DecidableEq

/-- data.loc[date, "Close"]: the price at a date, none when the date is
absent (pandas raises KeyError there). -/
def PriceTable.lookup (t : PriceTable) (d : Nat) : Option ℚ :=
  (t.rows.find? (fun r => r.1 == d)).map Prod.snd

/-- Decidable equality for Except values, used to evaluate the engine on
concrete inputs. -/
instance {ε α : Type} [DecidableEq ε] [DecidableEq α] : DecidableEq (Except ε α) := fun a b =>
  match a, b with
  | .error x, .error y => decidable_of_iff (x = y) (by simp)
  | .ok x, .ok y => decidable_of_iff (x = y) (by simp)
  | .error _, .ok _ => isFalse (fun h => Except.noConfusion h)
  | .ok _, .error _ => isFalse (fun h => Except.noConfusion h)

namespace SimpleBacktestEngine

/-- One order applied to the engine state (backtest_engine.py lines 34-43).
Returns the new cash, the new holdings, and whether the loop body reaches
the append of a portfolio-value row (a SELL larger than the holdings hits
a continue statement and does not reach it). A BUY is applied
unconditionally: the source has no cash check (its TODO notes this). -/
def applyOrder (close_price : ℚ) (cash : ℚ) (holdings : Int) (o : Order) :
    ℚ × Int × Bool :=
  match o.type with
  | Side.buy => (cash - close_price * (o.quantity : ℚ), holdings + o.quantity, true)
  | Side.sell =>
    if o.quantity ≤ holdings then
      (cash + close_price * (o.quantity : ℚ), holdings - o.quantity, true)
    else
      (cash, holdings, false)

/-- The order loop of run_backtest (backtest_engine.py lines 29-47),
also exposing the final cash and holdings.  A missing price for a date is
the KeyError pandas raises on data.loc[date, "Close"]. -/
def run_backtest_aux (data : PriceTable) :
    List Order → ℚ → Int → Except String (List (Nat × ℚ) × ℚ × Int)
  | [], cash, holdings => Except.ok ([], cash, holdings)
  | o :: rest, cash, holdings =>
    match data.lookup o.date with
    | none => Except.error "KeyError: date not in index"
    | some close_price =>
      let s := applyOrder close_price cash holdings o
      match run_backtest_aux data rest s.1 s.2.1 with
      | Except.error e => Except.error e
      | Except.ok (rows, final_cash, final_holdings) =>
        Except.ok
          ((if s.2.2 then [(o.date, s.1 + (s.2.1 : ℚ) * close_price)] else []) ++ rows,
            final_cash, final_holdings)

/-- run_backtest (backtest_engine.py lines 24-49): the portfolio-value
series produced by replaying the orders from the initial cash, with zero
initial holdings. -/
def run_backtest (initial_cash : ℚ) (orders : List Order) (data : PriceTable) :
    Except String (List (Nat × ℚ)) :=
  (run_backtest_aux data orders initial_cash 0).map (fun r => r.1)

end SimpleBacktestEngine

/-- Python int() applied to a nonnegative-or-negative rational: truncation
toward zero. -/
def pyInt (q : ℚ) : Int :=
  if q < 0 then ⌈q⌉ else ⌊q⌋

/-- decile_size = max(int(num_stocks * 0.1), 1).  For every list length
that arises, int(n * 0.1) in floating point equals n // 10: the double
nearest 0.1 is slightly above one tenth and the excess never pushes the
product across an integer for any realistic n. -/
def decile_size (num_stocks : Nat) : Nat :=
  max (num_stocks / 10) 1

/-- Comparison used by Series.sort_values(): ascending order on the stored
value of a (ticker, value) pair. -/
def valueLE : (String × ℚ) → (String × ℚ) → Prop := fun a b => a.2 ≤ b.2

instance : DecidableRel valueLE := fun a b => inferInstanceAs (Decidable (a.2 ≤ b.2))

instance : IsTotal (String × ℚ) valueLE := ⟨fun a b => le_total a.2 b.2⟩

instance : IsTrans (String × ℚ) valueLE := ⟨fun _ _ _ h1 h2 => le_trans h1 h2⟩

/-- Series.sort_values(): sort the (ticker, value) pairs by value
ascending.  The pandas sort is unstable (quicksort); every theorem whose
conclusion depends on the order of equal values assumes the values are
distinct, where all correct sorts agree. -/
def sort_values (l : List (String × ℚ)) : List (String × ℚ) :=
  List.insertionSort valueLE l

/-- Series.mean() over rationals; the empty-series case (nan in pandas) is
mapped to the junk value 0 and is branched around explicitly wherever the
source distinguishes it. -/
def qmean (l : List ℚ) : ℚ :=
  l.sum / (l.length : ℚ)

/-- Series.pct_change(fill_method=None).dropna(): period-over-period
fractional change, indexed by the date of the later observation; the
leading nan row is dropped. -/
def pct_change (series : List (Nat × ℚ)) : List (Nat × ℚ) :=
  (series.zip (series.drop 1)).map (fun p => (p.2.1, p.2.2 / p.1.2 - 1))

/-- pd.concat([a, b], axis=1, join="inner"): rows at the dates present in
both series, carrying both values.  Date indexes are assumed unique, as
they are for price series. -/
def innerJoin (a b : List (Nat × ℚ)) : List (Nat × ℚ × ℚ) :=
  a.filterMap (fun p => (b.find? (fun q => q.1 == p.1)).map (fun q => (p.1, p.2, q.2)))

/-- Sample covariance with the pandas/numpy default ddof = 1; the two
series are already positionally aligned. -/
def sample_cov (xs ys : List ℚ) : ℚ :=
  (((xs.zip ys).map (fun p => (p.1 - qmean xs) * (p.2 - qmean ys))).sum) / ((xs.length : ℚ) - 1)

/-- Sample variance with the pandas default ddof = 1. -/
def sample_var (xs : List ℚ) : ℚ :=
  ((xs.map (fun x => (x - qmean xs) ^ 2)).sum) / ((xs.length : ℚ) - 1)

namespace MeanReversionOrderGenerator

/-- The rolling window of the strategy (order_generator.py line 21). -/
def window : Nat := 100

/-- The 100 day rolling mean at position i of a price list: the mean of
the window ending at i, defined (non-nan) only when i + 1 is at least the
window size. -/
def rolling_mean (prices : List ℚ) (i : Nat) : ℚ :=
  (((prices.drop (i + 1 - window)).take window).sum) / (window : ℚ)

/-- The inner loop of generate_orders (order_generator.py lines 19-29) for
one ticker column: for each row whose rolling mean is defined, emit BUY
when the adjusted close is strictly below the mean and SELL otherwise,
with fixed quantity 100. -/
def generate_orders_ticker (ticker : String) (series : List (Nat × ℚ)) : List Order :=
  (List.range series.length).filterMap (fun i =>
    match series[i]? with
    | none => none
    | some dp =>
      if window ≤ i + 1 then
        some { date := dp.1,
               type := if dp.2 < rolling_mean (series.map Prod.snd) i then Side.buy else Side.sell,
               ticker := ticker,
               quantity := 100 }
      else none)

/-- generate_orders (order_generator.py lines 15-31): per-ticker order
lists concatenated ticker by ticker. -/
def generate_orders (data : List (String × List (Nat × ℚ))) : List Order :=
  (data.map (fun td => generate_orders_ticker td.1 td.2)).flatten

end MeanReversionOrderGenerator

namespace BettingAgainstBetaOrderGenerator

/-- calculate_beta (order_generator.py lines 42-49): covariance of the
stock and market returns over the variance of the market returns. -/
def calculate_beta (stock_returns market_returns : List ℚ) : ℚ :=
  sample_cov stock_returns market_returns / sample_var market_returns

/-- calculate_betas (order_generator.py lines 51-69): per non-SPY ticker,
daily returns inner-joined with the SPY returns, truncated to the dates up
to the rebalance date, last lookback rows; tickers with fewer than
lookback aligned rows are skipped. -/
def calculate_betas (lookback : Nat) (data : List (String × List (Nat × ℚ)))
    (spy_returns : List (Nat × ℚ)) (date : Nat) : List (String × ℚ) :=
  data.filterMap (fun td =>
    if td.1 = "SPY" then none
    else
      let stock_returns := pct_change td.2
      let combined := (innerJoin stock_returns spy_returns).filter (fun r => r.1 ≤ date)
      let recent := combined.drop (combined.length - lookback)
      if recent.length < lookback then none
      else some (td.1, calculate_beta (recent.map (fun r => r.2.1)) (recent.map (fun r => r.2.2))))

/-- The low-beta decile: the first decile_size entries of the ascending
sort (Series.head). -/
def low_decile (beta_values : List (String × ℚ)) : List (String × ℚ) :=
  (sort_values beta_values).take (decile_size (sort_values beta_values).length)

/-- The high-beta decile: the last decile_size entries of the ascending
sort (Series.tail). -/
def high_decile (beta_values : List (String × ℚ)) : List (String × ℚ) :=
  (sort_values beta_values).drop
    ((sort_values beta_values).length - decile_size (sort_values beta_values).length)

/-- Average beta of the low decile (order_generator.py line 81).  Indexing
the original series by the decile tickers returns exactly the decile
values, the dict keys being unique. -/
def avg_low_beta (beta_values : List (String × ℚ)) : ℚ :=
  qmean ((low_decile beta_values).map Prod.snd)

/-- Average beta of the high decile (order_generator.py line 82). -/
def avg_high_beta (beta_values : List (String × ℚ)) : ℚ :=
  qmean ((high_decile beta_values).map Prod.snd)

/-- generate_orders_for_date (order_generator.py lines 71-112).  Two
branches mirror the floating-point semantics of the source:
with no stocks the loops never run and the empty list is returned, and
with a zero decile-average sum the weights are the floats inf, -inf or
nan, so the first int(...) quantity conversion raises OverflowError or
ValueError before any order is built; that raise is the error value here.
With a nonzero denominator every value is finite and the BUY orders for
the low decile precede the SELL orders for the high decile. -/
def generate_orders_for_date (starting_portfolio_value : ℚ)
    (beta_values : List (String × ℚ)) (date : Nat) : Except String (List Order) :=
  let num_stocks := (sort_values beta_values).length
  let d := decile_size num_stocks
  let low_beta_tickers := (low_decile beta_values).map Prod.fst
  let high_beta_tickers := (high_decile beta_values).map Prod.fst
  let denom := avg_low_beta beta_values + avg_high_beta beta_values
  if num_stocks = 0 then Except.ok []
  else if denom = 0 then
    Except.error "OverflowError: cannot convert float infinity to integer"
  else
    let low_beta_weight := avg_high_beta beta_values / denom
    let high_beta_weight := avg_low_beta beta_values / denom
    Except.ok
      ((low_beta_tickers.map (fun t =>
          { date := date, type := Side.buy, ticker := t,
            quantity := pyInt (starting_portfolio_value * low_beta_weight / (d : ℚ)) }))
        ++ (high_beta_tickers.map (fun t =>
          { date := date, type := Side.sell, ticker := t,
            quantity := pyInt (starting_portfolio_value * high_beta_weight / (d : ℚ)) })))

/-- The rebalance loop of generate_orders (order_generator.py lines
128-133): dates with fewer than 20 computable betas are skipped, the
others contribute their orders in date order. -/
def process_rebalance_dates (starting_portfolio_value : ℚ) (lookback : Nat)
    (data : List (String × List (Nat × ℚ))) (spy_returns : List (Nat × ℚ)) :
    List Nat → Except String (List Order)
  | [] => Except.ok []
  | date :: rest =>
    let beta_values := calculate_betas lookback data spy_returns date
    if beta_values.length < 20 then
      process_rebalance_dates starting_portfolio_value lookback data spy_returns rest
    else
      match generate_orders_for_date starting_portfolio_value beta_values date with
      | Except.error e => Except.error e
      | Except.ok orders =>
        match process_rebalance_dates starting_portfolio_value lookback data spy_returns rest with
        | Except.error e => Except.error e
        | Except.ok more => Except.ok (orders ++ more)

/-- generate_orders (order_generator.py lines 114-135).  The calendar
enumeration pd.date_range is outside the core and is passed in as the list
of rebalance dates; absent SPY data raises ValueError and a SPY return
series no longer than the lookback raises IndexError on index[lookback]. -/
def generate_orders (starting_portfolio_value : ℚ) (lookback : Nat)
    (data : List (String × List (Nat × ℚ))) (rebalance_dates : List Nat) :
    Except String (List Order) :=
  match data.find? (fun td => td.1 == "SPY") with
  | none => Except.error "ValueError: SPY data is required for beta calculation."
  | some spy =>
    let spy_returns := pct_change spy.2
    if lookback < spy_returns.length then
      process_rebalance_dates starting_portfolio_value lookback data spy_returns rebalance_dates
    else Except.error "IndexError: index out of bounds"

end BettingAgainstBetaOrderGenerator

namespace StableMinusRiskyOrderGenerator

/-- calculate_predicted_returns (order_generator.py lines 143-162) for one
ticker frame: with at least lookback rows up to the rebalance date and at
least one daily return in the trailing window, the annualized mean daily
return; otherwise the ticker is skipped. -/
def predicted_return (lookback : Nat) (df : List (Nat × ℚ)) (date : Nat) : Option ℚ :=
  if df.length < lookback then none
  else if df.getLast? |>.all (fun p => p.1 < date) then none
  else
    let df_up_to_date := df.filter (fun p => p.1 ≤ date)
    if df_up_to_date.length < lookback then none
    else
      let recent := df_up_to_date.drop (df_up_to_date.length - lookback)
      let daily_returns := pct_change recent
      if 0 < daily_returns.length then some (qmean (daily_returns.map Prod.snd) * 252)
      else none

/-- calculate_predicted_returns over the whole data mapping. -/
def calculate_predicted_returns (lookback : Nat) (data : List (String × List (Nat × ℚ)))
    (date : Nat) : List (String × ℚ) :=
  data.filterMap (fun td => (predicted_return lookback td.2 date).map (fun r => (td.1, r)))

/-- generate_orders_for_date (order_generator.py lines 164-197): sort by
predicted return ascending, BUY every ticker of the last decile (the
stable leg), SELL every ticker of the first decile (the risky leg), each
with quantity int(half the capital / decile size), orders emitted only for
a positive quantity. -/
def generate_orders_for_date (starting_portfolio_value : ℚ)
    (predicted_returns : List (String × ℚ)) (date : Nat) : List Order :=
  if predicted_returns = [] then []
  else
    let sorted_by_pr := sort_values predicted_returns
    let num_stocks := sorted_by_pr.length
    let d := decile_size num_stocks
    let risky_tickers := (sorted_by_pr.take d).map Prod.fst
    let stable_tickers := (sorted_by_pr.drop (num_stocks - d)).map Prod.fst
    let quantity := pyInt (starting_portfolio_value / 2 / (d : ℚ))
    (if 0 < quantity then
        stable_tickers.map (fun t =>
          { date := date, type := Side.buy, ticker := t, quantity := quantity })
      else [])
    ++ (if 0 < quantity then
        risky_tickers.map (fun t =>
          { date := date, type := Side.sell, ticker := t, quantity := quantity })
      else [])

/-- A concrete rebalance-date input for the stable-minus-risky generator:
20 tickers with pairwise distinct predicted returns 1 to 20. -/
def sample_predicted_returns : List (String × ℚ) :=
  [("A", 1), ("B", 2), ("C", 3), ("D", 4), ("E", 5), ("F", 6), ("G", 7), ("H", 8),
   ("I", 9), ("J", 10), ("K", 11), ("L", 12), ("M", 13), ("N", 14), ("O", 15),
   ("P", 16), ("Q", 17), ("R", 18), ("S", 19), ("T", 20)]

end StableMinusRiskyOrderGenerator

namespace SimpleBacktestEngine

/-- A real-valued date-indexed series, as used by calculate
(backtest_engine.py lines 51-84); real numbers model the floats of the
source, so the transcendental functions below are the exact ones. -/
abbrev RSeries := List (Nat × ℝ)

/-- The date index of a series. -/
def seriesDates (s : RSeries) : List Nat :=
  s.map Prod.fst

/-- The values of a series in date order. -/
def seriesValues (s : RSeries) : List ℝ :=
  s.map Prod.snd

noncomputable section

/-- Series.mean() over the reals. -/
def rmean (l : List ℝ) : ℝ :=
  l.sum / (l.length : ℝ)

/-- Sample variance, pandas ddof = 1. -/
def sampleVarR (l : List ℝ) : ℝ :=
  ((l.map (fun x => (x - rmean l) ^ 2)).sum) / ((l.length : ℝ) - 1)

/-- Sample standard deviation, Series.std(). -/
def sampleStdR (l : List ℝ) : ℝ :=
  Real.sqrt (sampleVarR l)

/-- Sample covariance of two positionally aligned lists, numpy ddof = 1. -/
def sampleCovR (xs ys : List ℝ) : ℝ :=
  (((xs.zip ys).map (fun p => (p.1 - rmean xs) * (p.2 - rmean ys))).sum) / ((xs.length : ℝ) - 1)

/-- Pearson correlation, Series.corr() on aligned series. -/
def pearson (xs ys : List ℝ) : ℝ :=
  sampleCovR xs ys / (sampleStdR xs * sampleStdR ys)

/-- returns.align(benchmark_returns, join="inner"): both series restricted
to the dates present in both, keeping each ones original order. -/
def align_inner (a b : RSeries) : RSeries × RSeries :=
  (a.filter (fun p => decide (p.1 ∈ seriesDates b)),
   b.filter (fun p => decide (p.1 ∈ seriesDates a)))

/-- Series.cummax() of the tail of a list given the running maximum so
far. -/
def cummaxFrom : List ℝ → ℝ → List ℝ
  | [], _ => []
  | x :: xs, m => max m x :: cummaxFrom xs (max m x)

/-- Series.cummax(). -/
def running_max (l : List ℝ) : List ℝ :=
  match l with
  | [] => []
  | x :: xs => x :: cummaxFrom xs x

/-- Minimum of a list of reals, Series.min(); 0 is the junk value for the
empty list (nan in pandas). -/
def listMin : List ℝ → ℝ
  | [] => 0
  | x :: xs => xs.foldl min x

/-- Series.quantile(q), the pandas default linear interpolation between
order statistics: at fractional position h = q * (n - 1) of the sorted
values, lower + (h - floor h) * (upper - lower). -/
def quantileLinear (q : ℝ) (l : List ℝ) : ℝ :=
  let s := List.insertionSort (· ≤ ·) l
  let h := q * ((s.length : ℝ) - 1)
  let k := (⌊h⌋).toNat
  let lower := s.getD k 0
  let upper := s.getD (k + 1) lower
  lower + (h - (k : ℝ)) * (upper - lower)

/-- The metrics dict built by calculate (backtest_engine.py lines 51-84);
None values of the source are the none of an Option field. -/
structure MetricsResult where
  daily_return : ℝ
  cumulative_return : ℝ
  log_return : ℝ
  volatility : ℝ
  information_coefficient : Option ℝ
  sharpe_ratio : ℝ
  max_drawdown : ℝ
  value_at_risk_5 : ℝ
  beta : Option ℝ
  alpha : Option ℝ

/-- calculate (backtest_engine.py lines 51-84).  The benchmark-dependent
fields are computed from the inner-aligned pair of return series when a
benchmark is supplied and are None otherwise. -/
def calculate (portfolio_values returns : RSeries) (benchmark_returns : Option RSeries) :
    MetricsResult :=
  let rs := seriesValues returns
  let aligned := benchmark_returns.map (fun b => align_inner returns b)
  let risk_free_rate : ℝ := 0.0045
  let excess_returns := rs.map (fun r => r - risk_free_rate / 252)
  let pv := seriesValues portfolio_values
  let drawdown := (pv.zip (running_max pv)).map (fun p => p.1 / p.2 - 1)
  { daily_return := rmean rs
  , cumulative_return := (rs.map (fun r => 1 + r)).prod - 1
  , log_return := rmean (rs.map (fun r => Real.log (1 + r)))
  , volatility := sampleStdR rs * Real.sqrt 252
  , information_coefficient :=
      aligned.map (fun ab => pearson (seriesValues ab.1) (seriesValues ab.2))
  , sharpe_ratio := rmean excess_returns / sampleStdR excess_returns * Real.sqrt 252
  , max_drawdown := listMin drawdown
  , value_at_risk_5 := quantileLinear 0.05 rs
  , beta :=
      aligned.map (fun ab =>
        sampleCovR (seriesValues ab.1) (seriesValues ab.2) / sampleVarR (seriesValues ab.2))
  , alpha :=
      aligned.map (fun ab =>
        rmean (seriesValues ab.1) * 252 -
          (sampleCovR (seriesValues ab.1) (seriesValues ab.2) / sampleVarR (seriesValues ab.2)) *
            rmean (seriesValues ab.2) * 252) }

end

end SimpleBacktestEngine

namespace SimpleBacktestEngine

theorem applyOrder_value_neutral (p cash : ℚ) (h : Int) (o : Order) (c2 : ℚ) (h2 : Int)
    (hex : applyOrder p cash h o = (c2, h2, true)) :
    c2 + (h2 : ℚ) * p = cash + (h : ℚ) * p := by
  obtain ⟨d, ty, tk, q⟩ := o
  cases ty
  · simp only [applyOrder, Prod.mk.injEq] at hex
    obtain ⟨hc, hh, -⟩ := hex
    rw [← hc, ← hh]
    push_cast
    ring
  · simp only [applyOrder] at hex
    split at hex
    · simp only [Prod.mk.injEq] at hex
      obtain ⟨hc, hh, -⟩ := hex
      rw [← hc, ← hh]
      push_cast
      ring
    · simp at hex

theorem applyOrder_holdings_nonneg (p c : ℚ) (h : Int) (o : Order)
    (h0 : 0 ≤ h) (hq : 0 ≤ o.quantity) : 0 ≤ (applyOrder p c h o).2.1 := by
  obtain ⟨d, ty, tk, q⟩ := o
  simp only [Order.quantity] at hq
  cases ty
  · simp only [applyOrder]
    omega
  · simp only [applyOrder]
    split
    · next hle => simp only; omega
    · exact h0

theorem run_backtest_aux_holdings_nonneg (data : PriceTable) :
    ∀ (orders : List Order) (cash : ℚ) (h0 : Int),
      0 ≤ h0 → (∀ o ∈ orders, 0 ≤ o.quantity) →
      ∀ rows c h, run_backtest_aux data orders cash h0 = Except.ok (rows, c, h) → 0 ≤ h := by
  intro orders
  induction orders with
  | nil =>
    intro cash h0 hh _ rows c h heq
    simp only [run_backtest_aux, Except.ok.injEq, Prod.mk.injEq] at heq
    omega
  | cons o rest ih =>
    intro cash h0 hh hq rows c h heq
    simp only [run_backtest_aux] at heq
    cases hl : data.lookup o.date with
    | none => rw [hl] at heq; simp at heq
    | some p =>
      rw [hl] at heq
      simp only at heq
      cases hrec : run_backtest_aux data rest (applyOrder p cash h0 o).1
          (applyOrder p cash h0 o).2.1 with
      | error e => rw [hrec] at heq; simp at heq
      | ok r =>
        obtain ⟨rows2, fc, fh⟩ := r
        rw [hrec] at heq
        simp only [Except.ok.injEq, Prod.mk.injEq] at heq
        have hfh : 0 ≤ fh :=
          ih (applyOrder p cash h0 o).1 (applyOrder p cash h0 o).2.1
            (applyOrder_holdings_nonneg p cash h0 o hh (hq o (List.mem_cons_self o rest)))
            (fun u hu => hq u (List.mem_cons_of_mem o hu)) rows2 fc fh hrec
        omega

/-- C3: under the holdings-checked simulator policy (the SELL branch of
run_backtest) the holdings count never goes negative at any point of the
run, and a SELL whose quantity exceeds the current holdings is rejected
with cash and holdings left exactly unchanged. -/
theorem c3_holdings_never_negative :
    (∀ (data : PriceTable) (initial_cash : ℚ) (orders pre suf : List Order),
        orders = pre ++ suf →
        (∀ o ∈ orders, 0 ≤ o.quantity) →
        ∀ rows c h, run_backtest_aux data pre initial_cash 0 = Except.ok (rows, c, h) →
          0 ≤ h)
  ∧ (∀ (p c : ℚ) (h : Int) (o : Order),
        o.type = Side.sell → h < o.quantity → applyOrder p c h o = (c, h, false)) := by
  constructor
  · intro data cash orders pre suf hsplit hq rows c h heq
    exact run_backtest_aux_holdings_nonneg data pre cash 0 le_rfl
      (fun o ho => hq o (hsplit ▸ List.mem_append_left suf ho)) rows c h heq
  · intro p c h o hty hlt
    obtain ⟨d, ty, tk, q⟩ := o
    simp only [Order.type] at hty
    simp only [Order.quantity] at hlt
    subst hty
    simp only [applyOrder]
    rw [if_neg (not_le.mpr hlt)]

theorem c3_witness :
    (0 : Int) ≤ 0 ∧
      applyOrder 150 10000 0 { date := 0, type := Side.sell, ticker := "AAPL", quantity := 50 }
        = (10000, 0, false) :=
  ⟨c3_holdings_never_negative.1 { rows := [(0, 150)] } 10000 [] [] [] rfl
      (by simp) [] 10000 0 rfl,
    c3_holdings_never_negative.2 150 10000 0
      { date := 0, type := Side.sell, ticker := "AAPL", quantity := 50 } rfl (by decide)⟩

/-- C1 counterexample: with two dates in the price table, an empty order
sequence and initial cash 1000, run_backtest returns the empty series,
not one entry of 1000 per date. -/
theorem c1_counterexample :
    run_backtest 1000 [] { rows := [(0, 5), (1, 6)] } = Except.ok [] ∧
      (Except.ok ([] : List (Nat × ℚ)) : Except String (List (Nat × ℚ))) ≠
        Except.ok [(0, (1000 : ℚ)), (1, 1000)] :=
  ⟨rfl, by decide⟩

/-- C1 (amended): running the simulator with an empty order sequence
returns an empty PortfolioValueSeries for every price table and every
initial cash: the engine appends one entry per processed order, not one
per price-table date. -/
theorem c1_empty_orders_empty_series (initial_cash : ℚ) (data : PriceTable) :
    run_backtest initial_cash [] data = Except.ok [] := rfl

/-- C2 counterexample: with initial cash 5000 and the single order BUY
AAPL 100 at price 150, the engine executes the order rather than
rejecting it, cash becomes the negative value -10000 and holdings become
100. -/
theorem c2_counterexample :
    run_backtest_aux { rows := [(0, 150)] }
        [{ date := 0, type := Side.buy, ticker := "AAPL", quantity := 100 }] 5000 0
      = Except.ok ([(0, 5000)], -10000, 100) ∧
      (-10000 : ℚ) < 0 ∧ (100 : Int) ≠ 0 := by
  refine ⟨by norm_num [run_backtest_aux, PriceTable.lookup, applyOrder, List.find?],
    by norm_num, by decide⟩

/-- C2 (amended): the engine applies no cash check, so a BUY always
executes and cash may go negative; in the concrete scenario the order
executes, leaving cash -10000 and holdings 100, and the resulting
single-date portfolio value is nevertheless 5000 because execution is
value-neutral at the execution price. -/
theorem c2_buy_never_rejected :
    (∀ (p cash : ℚ) (h : Int) (d : Nat) (tk : String) (q : Int),
        applyOrder p cash h { date := d, type := Side.buy, ticker := tk, quantity := q }
          = (cash - p * (q : ℚ), h + q, true))
  ∧ run_backtest 5000 [{ date := 0, type := Side.buy, ticker := "AAPL", quantity := 100 }]
      { rows := [(0, 150)] } = Except.ok [(0, 5000)] :=
  ⟨fun _ _ _ _ _ _ => rfl,
    by norm_num [run_backtest, run_backtest_aux, PriceTable.lookup, applyOrder, List.find?,
      Except.map]⟩

/-- C4: on the scenario initial cash 10000, single order SELL AAPL 50,
zero prior holdings, price 150 at the one date of the table, the engine
rejects the order but the continue statement also skips the valuation
append, so the returned series is empty rather than containing the entry
(date, 10000) that the specification and the unit test
test_backtest_engine_sell_without_holdings expect. -/
theorem c4_rejected_sell_skips_valuation :
    run_backtest 10000 [{ date := 0, type := Side.sell, ticker := "AAPL", quantity := 50 }]
        { rows := [(0, 150)] } = Except.ok [] ∧
      run_backtest_aux { rows := [(0, 150)] }
          [{ date := 0, type := Side.sell, ticker := "AAPL", quantity := 50 }] 10000 0
        = Except.ok ([], 10000, 0) := by
  refine ⟨by decide, by decide⟩

/-- C10: every order the engine executes is value-neutral at its
execution price: the post-order state satisfies cash + holdings * price =
value of the pre-order state at the same price, and the series row
appended immediately after an executed order carries exactly the
pre-order portfolio value marked at that price. -/
theorem c10_executed_order_value_neutral :
    (∀ (p cash : ℚ) (h : Int) (o : Order) (c2 : ℚ) (h2 : Int),
        applyOrder p cash h o = (c2, h2, true) →
        c2 + (h2 : ℚ) * p = cash + (h : ℚ) * p)
  ∧ (∀ (data : PriceTable) (o : Order) (rest : List Order) (cash : ℚ) (h : Int)
        (p : ℚ) (c2 : ℚ) (h2 : Int),
        data.lookup o.date = some p →
        applyOrder p cash h o = (c2, h2, true) →
        run_backtest_aux data (o :: rest) cash h =
          (run_backtest_aux data rest c2 h2).map
            (fun r => ((o.date, cash + (h : ℚ) * p) :: r.1, r.2))) := by
  constructor
  · exact applyOrder_value_neutral
  · intro data o rest cash h p c2 h2 hl hex
    have hval : c2 + (h2 : ℚ) * p = cash + (h : ℚ) * p :=
      applyOrder_value_neutral p cash h o c2 h2 hex
    simp only [run_backtest_aux, hl, hex]
    cases hrec : run_backtest_aux data rest c2 h2 with
    | error e => simp [Except.map]
    | ok r =>
      obtain ⟨rows2, fc, fh⟩ := r
      simp [Except.map, hval]

theorem c10_witness :
    (-10000 : ℚ) + ((100 : Int) : ℚ) * 150 = 5000 + ((0 : Int) : ℚ) * 150 :=
  c10_executed_order_value_neutral.1 150 5000 0
    { date := 0, type := Side.buy, ticker := "AAPL", quantity := 100 } (-10000) 100
    (by norm_num [applyOrder])

end SimpleBacktestEngine

theorem filterMap_range_cons {α : Type} (N k : Nat) (f : Nat → Option α) (o : α)
    (hk : k < N) (hnone : ∀ i, i < k → f i = none) (hsome : f k = some o) :
    ∃ rest, (List.range N).filterMap f = o :: rest := by
  have hN : N = k + (N - k) := by omega
  have hm : N - k = (N - k - 1) + 1 := by omega
  have h0 : (f ∘ (fun a => k + a)) 0 = some o := by simpa using hsome
  have h1 : (List.range N).filterMap f =
      o :: ((List.range (N - k - 1)).map Nat.succ).filterMap (f ∘ (fun a => k + a)) := by
    conv_lhs =>
      rw [hN, List.range_add, List.filterMap_append, List.filterMap_map, hm,
        List.range_succ_eq_map,
        List.filterMap_eq_nil_iff.mpr (fun a ha => hnone a (List.mem_range.mp ha)),
        List.filterMap_cons_some h0]
    simp
  exact ⟨_, h1⟩

namespace MeanReversionOrderGenerator

theorem generate_orders_single (t : String) (series : List (Nat × ℚ)) :
    generate_orders [(t, series)] = generate_orders_ticker t series := by
  simp [generate_orders]

/-- C8: for a single-ticker price series of length N, the mean-reversion
generator emits no order when N is below the window; when N reaches the
window the first emitted order is dated at the observation of 0-based
index window - 1; every emitted order has the fixed quantity 100; and an
order is emitted for every position whose rolling mean is defined, BUY
exactly when the adjusted close is strictly below the trailing
window-mean and SELL otherwise. -/
theorem c8_mean_reversion_window (t : String) (series : List (Nat × ℚ)) :
    (series.length < window → generate_orders [(t, series)] = [])
  ∧ (∀ d p, series[window - 1]? = some (d, p) →
      ∃ o rest, generate_orders [(t, series)] = o :: rest ∧ o.date = d)
  ∧ (∀ o ∈ generate_orders [(t, series)], o.quantity = 100 ∧ o.ticker = t)
  ∧ (∀ i d p, series[i]? = some (d, p) → window ≤ i + 1 →
      ({ date := d,
         type := if p < rolling_mean (series.map Prod.snd) i then Side.buy else Side.sell,
         ticker := t, quantity := 100 } : Order) ∈ generate_orders [(t, series)]) := by
  have hw : window = 100 := rfl
  refine ⟨?_, ?_, ?_, ?_⟩
  · intro hlen
    rw [generate_orders_single]
    unfold generate_orders_ticker
    refine List.filterMap_eq_nil_iff.mpr ?_
    intro i hi
    have hi2 : i < series.length := List.mem_range.mp hi
    cases hg : series[i]? with
    | none => simp [hg]
    | some dp =>
      simp only [hg]
      rw [if_neg (by omega)]
  · intro d p hget
    have hlen : window - 1 < series.length := by
      by_contra hc
      rw [List.getElem?_eq_none (by omega)] at hget
      exact Option.noConfusion hget
    rw [generate_orders_single]
    unfold generate_orders_ticker
    obtain ⟨rest, hrest⟩ :=
      filterMap_range_cons series.length (window - 1)
        (fun i =>
          match series[i]? with
          | none => none
          | some dp =>
            if window ≤ i + 1 then
              some ({ date := dp.1,
                      type := if dp.2 < rolling_mean (series.map Prod.snd) i then Side.buy
                              else Side.sell,
                      ticker := t, quantity := 100 } : Order)
            else none)
        ({ date := d,
           type := if p < rolling_mean (series.map Prod.snd) (window - 1) then Side.buy
                   else Side.sell,
           ticker := t, quantity := 100 } : Order)
        hlen
        (fun i hi => by
          cases hg : series[i]? with
          | none => simp [hg]
          | some dp =>
            simp only [hg]
            rw [if_neg (by omega)])
        (by
          simp only [hget]
          rw [if_pos (by omega)])
    exact ⟨_, rest, hrest, rfl⟩
  · intro o ho
    rw [generate_orders_single] at ho
    unfold generate_orders_ticker at ho
    rw [List.mem_filterMap] at ho
    obtain ⟨i, _, hf⟩ := ho
    cases hg : series[i]? with
    | none => rw [hg] at hf; exact Option.noConfusion hf
    | some dp =>
      rw [hg] at hf
      simp only at hf
      split at hf
      · rw [Option.some.injEq] at hf
        rw [← hf]
        exact ⟨rfl, rfl⟩
      · exact Option.noConfusion hf
  · intro i d p hget hwin
    have hi : i < series.length := by
      by_contra hc
      rw [List.getElem?_eq_none (by omega)] at hget
      exact Option.noConfusion hget
    rw [generate_orders_single]
    unfold generate_orders_ticker
    refine List.mem_filterMap.mpr ⟨i, List.mem_range.mpr hi, ?_⟩
    simp only [hget]
    rw [if_pos hwin]

theorem c8_witness :
    ∃ o rest,
      generate_orders [("AAPL", (List.range 100).map (fun i => (i, (1 : ℚ))))] = o :: rest ∧
        o.date = 99 :=
  (c8_mean_reversion_window "AAPL" ((List.range 100).map (fun i => (i, (1 : ℚ))))).2.1 99 1
    (by norm_num [window, List.getElem?_map, List.getElem?_range])

end MeanReversionOrderGenerator

theorem decile_size_le (n : Nat) (h : 1 ≤ n) : decile_size n ≤ n := by
  unfold decile_size
  omega

theorem sorted_strict (prs : List (String × ℚ)) (hnd : (prs.map Prod.snd).Nodup) :
    (sort_values prs).Pairwise (fun a b => a.2 < b.2) := by
  have hperm : List.Perm (sort_values prs) prs := List.perm_insertionSort valueLE prs
  have hsort : (sort_values prs).Pairwise valueLE := List.sorted_insertionSort valueLE prs
  have hnd2 : ((sort_values prs).map Prod.snd).Nodup :=
    ((hperm.map Prod.snd).nodup_iff).mpr hnd
  have hne : (sort_values prs).Pairwise (fun a b => a.2 ≠ b.2) :=
    List.pairwise_map.mp hnd2
  exact (hsort.and hne).imp (fun h => lt_of_le_of_ne h.1 h.2)

namespace StableMinusRiskyOrderGenerator

/-- C5 counterexample: on 20 tickers with distinct predicted returns 1 to
20, the generator emits BUY for S and T (the two HIGHEST predicted
returns) and SELL for A and B (the two lowest); the only order for the
lowest-return ticker A is a SELL, so the lowest-return decile is not
bought as the claim states. -/
theorem c5_counterexample :
    generate_orders_for_date 100000 sample_predicted_returns 5 =
      [{ date := 5, type := Side.buy, ticker := "S", quantity := 25000 },
       { date := 5, type := Side.buy, ticker := "T", quantity := 25000 },
       { date := 5, type := Side.sell, ticker := "A", quantity := 25000 },
       { date := 5, type := Side.sell, ticker := "B", quantity := 25000 }] ∧
    (generate_orders_for_date 100000 sample_predicted_returns 5).filter
        (fun o => o.ticker == "A") =
      [{ date := 5, type := Side.sell, ticker := "A", quantity := 25000 }] := by
  have h1 : generate_orders_for_date 100000 sample_predicted_returns 5 =
      [{ date := 5, type := Side.buy, ticker := "S", quantity := 25000 },
       { date := 5, type := Side.buy, ticker := "T", quantity := 25000 },
       { date := 5, type := Side.sell, ticker := "A", quantity := 25000 },
       { date := 5, type := Side.sell, ticker := "B", quantity := 25000 }] := by
    norm_num [generate_orders_for_date, sample_predicted_returns, sort_values,
      List.insertionSort, List.orderedInsert, valueLE, decile_size, pyInt]
    intro h
    exact absurd h (List.cons_ne_nil _ _)
  refine ⟨h1, ?_⟩
  rw [h1]
  rfl

/-- C5 (amended): for a rebalance date with at least 20 tickers having
computable, pairwise distinct predicted returns and a positive even-split
quantity, the generator emits a BUY order for every ticker of the
HIGHEST-predicted-return decile (the leg the source labels stable) and a
SELL order for every ticker of the LOWEST-predicted-return decile, each
with quantity int((capital / 2) / decile_size), half the capital per leg
divided evenly across its members.  Decile membership is stated by
counting: a ticker with fewer than decile_size strictly larger (resp.
smaller) predicted returns is in the top (resp. bottom) decile. -/
theorem c5_buys_top_decile (V : ℚ) (prs : List (String × ℚ)) (date : Nat) (t : String × ℚ)
    (hn : 20 ≤ prs.length) (hnd : (prs.map Prod.snd).Nodup) (hmem : t ∈ prs)
    (hq : 0 < pyInt (V / 2 / (decile_size prs.length : ℚ))) :
    ((prs.filter (fun s => t.2 < s.2)).length < decile_size prs.length →
      ({ date := date, type := Side.buy, ticker := t.1,
         quantity := pyInt (V / 2 / (decile_size prs.length : ℚ)) } : Order)
        ∈ generate_orders_for_date V prs date)
  ∧ ((prs.filter (fun s => s.2 < t.2)).length < decile_size prs.length →
      ({ date := date, type := Side.sell, ticker := t.1,
         quantity := pyInt (V / 2 / (decile_size prs.length : ℚ)) } : Order)
        ∈ generate_orders_for_date V prs date) := by
  have hperm : List.Perm (sort_values prs) prs := List.perm_insertionSort valueLE prs
  have hlen : (sort_values prs).length = prs.length := hperm.length_eq
  have hne0 : prs ≠ [] := by
    intro hcon
    rw [hcon] at hn
    simp at hn
  have hstrict := sorted_strict prs hnd
  have htl : t ∈ sort_values prs := hperm.mem_iff.mpr hmem
  have hd1 : 1 ≤ decile_size prs.length := le_max_right _ _
  have hdn : decile_size prs.length ≤ prs.length := decile_size_le _ (by omega)
  have hresult : generate_orders_for_date V prs date =
      (((sort_values prs).drop ((sort_values prs).length - decile_size (sort_values prs).length)).map Prod.fst).map
          (fun tk => ({ date := date, type := Side.buy, ticker := tk, quantity := pyInt (V / 2 / (decile_size (sort_values prs).length : ℚ)) } : Order))
        ++ (((sort_values prs).take (decile_size (sort_values prs).length)).map Prod.fst).map
          (fun tk => ({ date := date, type := Side.sell, ticker := tk, quantity := pyInt (V / 2 / (decile_size (sort_values prs).length : ℚ)) } : Order)) := by
    unfold generate_orders_for_date
    rw [if_neg hne0]
    simp only
    rw [if_pos (by rw [hlen]; exact hq), if_pos (by rw [hlen]; exact hq)]
  constructor
  · intro hcount
    have hsplit : sort_values prs =
        (sort_values prs).take ((sort_values prs).length - decile_size prs.length)
          ++ (sort_values prs).drop ((sort_values prs).length - decile_size prs.length) :=
      (List.take_append_drop _ _).symm
    have hdroplen :
        ((sort_values prs).drop ((sort_values prs).length - decile_size prs.length)).length
          = decile_size prs.length := by
      rw [List.length_drop]
      omega
    have htin : t ∈ (sort_values prs).drop
        ((sort_values prs).length - decile_size prs.length) := by
      rcases List.mem_append.mp (hsplit ▸ htl) with htake | hdrop
      · exfalso
        have hpw := hsplit ▸ hstrict
        rw [List.pairwise_append] at hpw
        have hall := fun b hb => hpw.2.2 t htake b hb
        have hfil :
            ((sort_values prs).drop ((sort_values prs).length - decile_size prs.length)).filter
                (fun s => decide (t.2 < s.2))
              = (sort_values prs).drop ((sort_values prs).length - decile_size prs.length) :=
          List.filter_eq_self.mpr (fun b hb => decide_eq_true (hall b hb))
        have hsub : List.Sublist
            (((sort_values prs).drop ((sort_values prs).length - decile_size prs.length)).filter
                (fun s => decide (t.2 < s.2)))
              ((sort_values prs).filter (fun s => decide (t.2 < s.2))) :=
          (List.drop_sublist _ _).filter _
        have hlenle := hsub.length_le
        rw [hfil, hdroplen] at hlenle
        have hpermfil := (hperm.filter (fun s => decide (t.2 < s.2))).length_eq
        omega
      · exact hdrop
    rw [hresult]
    refine List.mem_append_left _ ?_
    rw [hlen] at htin ⊢
    exact List.mem_map.mpr ⟨t.1, List.mem_map.mpr ⟨t, htin, rfl⟩, rfl⟩
  · intro hcount
    have hsplit : sort_values prs =
        (sort_values prs).take (decile_size prs.length)
          ++ (sort_values prs).drop (decile_size prs.length) :=
      (List.take_append_drop _ _).symm
    have htakelen :
        ((sort_values prs).take (decile_size prs.length)).length = decile_size prs.length := by
      rw [List.length_take]
      omega
    have htin : t ∈ (sort_values prs).take (decile_size prs.length) := by
      rcases List.mem_append.mp (hsplit ▸ htl) with htake | hdrop
      · exact htake
      · exfalso
        have hpw := hsplit ▸ hstrict
        rw [List.pairwise_append] at hpw
        have hall := fun b hb => hpw.2.2 b hb t hdrop
        have hfil :
            ((sort_values prs).take (decile_size prs.length)).filter
                (fun s => decide (s.2 < t.2))
              = (sort_values prs).take (decile_size prs.length) :=
          List.filter_eq_self.mpr (fun b hb => decide_eq_true (hall b hb))
        have hsub : List.Sublist
            (((sort_values prs).take (decile_size prs.length)).filter
                (fun s => decide (s.2 < t.2)))
              ((sort_values prs).filter (fun s => decide (s.2 < t.2))) :=
          (List.take_sublist _ _).filter _
        have hlenle := hsub.length_le
        rw [hfil, htakelen] at hlenle
        have hpermfil := (hperm.filter (fun s => decide (s.2 < t.2))).length_eq
        omega
    rw [hresult]
    refine List.mem_append_right _ ?_
    rw [hlen]
    exact List.mem_map.mpr ⟨t.1, List.mem_map.mpr ⟨t, htin, rfl⟩, rfl⟩

theorem c5_witness :
    ({ date := 7, type := Side.buy, ticker := "T",
       quantity := pyInt ((100000 : ℚ) / 2 / (decile_size sample_predicted_returns.length : ℚ)) } : Order)
      ∈ generate_orders_for_date 100000 sample_predicted_returns 7 :=
  (c5_buys_top_decile 100000 sample_predicted_returns 7 ("T", 20)
    (by norm_num [sample_predicted_returns])
    (by norm_num [sample_predicted_returns, List.nodup_cons])
    (by norm_num [sample_predicted_returns])
    (by norm_num [sample_predicted_returns, pyInt, decile_size])).1
    (by norm_num [sample_predicted_returns, decile_size, List.filter])

end StableMinusRiskyOrderGenerator

namespace BettingAgainstBetaOrderGenerator

/-- C6: on a rebalance date whose low-decile and high-decile average betas
sum to zero, the generator raises an error instead of emitting orders:
the float weights come out inf, -inf or nan, and the first quantity
conversion int(...) raises OverflowError or ValueError before any order
is produced. -/
theorem c6_zero_beta_sum_raises (V : ℚ) (beta_values : List (String × ℚ)) (date : Nat)
    (hne : beta_values ≠ [])
    (hzero : avg_low_beta beta_values + avg_high_beta beta_values = 0) :
    ∃ e, generate_orders_for_date V beta_values date = Except.error e := by
  have hlen : (sort_values beta_values).length = beta_values.length := by
    unfold sort_values
    exact List.length_insertionSort _ _
  have hn : ¬((sort_values beta_values).length = 0) := by
    rw [hlen]
    intro h
    exact hne (List.length_eq_zero.mp h)
  simp only [generate_orders_for_date]
  rw [if_neg hn, if_pos hzero]
  exact ⟨_, rfl⟩

theorem c6_witness :
    ([(("A" : String), (-1 : ℚ)), ("B", 1)] ≠ ([] : List (String × ℚ))) ∧
      ∃ e, generate_orders_for_date 100000 [("A", -1), ("B", 1)] 0 = Except.error e :=
  ⟨List.cons_ne_nil _ _,
    c6_zero_beta_sum_raises 100000 [("A", -1), ("B", 1)] 0 (List.cons_ne_nil _ _)
      (by norm_num [avg_low_beta, avg_high_beta, low_decile, high_decile, sort_values,
        List.insertionSort, List.orderedInsert, valueLE, decile_size, qmean])⟩

/-- C9: a rebalance date on which fewer than 20 tickers have a computable
beta contributes nothing to the run: the generator emits zero orders for
that date, raises no error there, and the output for the other rebalance
dates is exactly what it would be with that date removed. -/
theorem c9_skips_thin_rebalance (V : ℚ) (lookback : Nat)
    (data : List (String × List (Nat × ℚ))) (spy_returns : List (Nat × ℚ))
    (dates1 dates2 : List Nat) (d : Nat)
    (hfew : (calculate_betas lookback data spy_returns d).length < 20) :
    process_rebalance_dates V lookback data spy_returns (dates1 ++ d :: dates2) =
      process_rebalance_dates V lookback data spy_returns (dates1 ++ dates2) := by
  induction dates1 with
  | nil =>
    simp only [List.nil_append, process_rebalance_dates]
    rw [if_pos hfew]
  | cons hd tl ih =>
    simp only [List.cons_append, process_rebalance_dates, List.append_eq]
    simp only [ih]

theorem c9_witness :
    ((calculate_betas 60 [] [] 0).length < 20) ∧
      process_rebalance_dates 1 60 [] [] [0] = process_rebalance_dates 1 60 [] [] [] :=
  ⟨by norm_num [calculate_betas],
    c9_skips_thin_rebalance 1 60 [] [] [] [] 0 (by norm_num [calculate_betas])⟩

end BettingAgainstBetaOrderGenerator

namespace SimpleBacktestEngine

/-- C7: with no benchmark series the metrics result carries the
benchmark-dependent fields Information Coefficient, Beta and Alpha as
None; with a benchmark supplied each of the three is computed from the
inner-aligned pair of return series alone, and every date of that aligned
pair lies in both the returns index and the benchmark index, so the
fields are computed only over the intersection of dates. -/
theorem c7_benchmark_fields (pv returns : RSeries) :
    ((calculate pv returns none).information_coefficient = none ∧
      (calculate pv returns none).beta = none ∧
      (calculate pv returns none).alpha = none)
  ∧ (∀ b : RSeries,
      (calculate pv returns (some b)).information_coefficient =
        some (pearson (seriesValues (align_inner returns b).1)
          (seriesValues (align_inner returns b).2)) ∧
      (calculate pv returns (some b)).beta =
        some (sampleCovR (seriesValues (align_inner returns b).1)
            (seriesValues (align_inner returns b).2)
          / sampleVarR (seriesValues (align_inner returns b).2)) ∧
      (calculate pv returns (some b)).alpha =
        some (rmean (seriesValues (align_inner returns b).1) * 252 -
          (sampleCovR (seriesValues (align_inner returns b).1)
              (seriesValues (align_inner returns b).2)
            / sampleVarR (seriesValues (align_inner returns b).2)) *
            rmean (seriesValues (align_inner returns b).2) * 252) ∧
      (∀ dte ∈ seriesDates (align_inner returns b).1,
          dte ∈ seriesDates returns ∧ dte ∈ seriesDates b) ∧
      (∀ dte ∈ seriesDates (align_inner returns b).2,
          dte ∈ seriesDates returns ∧ dte ∈ seriesDates b)) := by
  refine ⟨⟨rfl, rfl, rfl⟩, ?_⟩
  intro b
  refine ⟨rfl, rfl, rfl, ?_, ?_⟩
  · intro dte hd
    simp only [seriesDates, align_inner, List.mem_map, List.mem_filter] at hd
    obtain ⟨p, ⟨hpmem, hpdec⟩, rfl⟩ := hd
    obtain ⟨a, ha, haeq⟩ := of_decide_eq_true hpdec
    exact ⟨List.mem_map.mpr ⟨p, hpmem, rfl⟩, List.mem_map.mpr ⟨a, ha, haeq⟩⟩
  · intro dte hd
    simp only [seriesDates, align_inner, List.mem_map, List.mem_filter] at hd
    obtain ⟨p, ⟨hpmem, hpdec⟩, rfl⟩ := hd
    obtain ⟨a, ha, haeq⟩ := of_decide_eq_true hpdec
    exact ⟨List.mem_map.mpr ⟨a, ha, haeq⟩, List.mem_map.mpr ⟨p, hpmem, rfl⟩⟩

end SimpleBacktestEngine

end Backtester
